import Mathlib

/-!
The relay and session engine of ts-proxy.

A shallow embedding of the Go sources `main.go`, `tsproxy/port_forward.go`,
`tsproxy/setup.go`, `tsproxy/socks.go` and `tsproxy/delayed.go`, followed by
theorems about the embedded functions.

Conventions of the embedding:

* a `time.Time` is its clock reading in nanoseconds (`Int`), a `time.Duration`
  is a number of nanoseconds (`Int`); `Time.Sub` saturates at the `int64` range;
* a `net.Conn` is an identifier (`Nat`); the nil interface value is `none`;
* calls into the operating system, the standard library's network stack and
  the overlay server are inputs of the embedded function (the result the call
  returned) and entries of the action trace it produces;
* a Go panic is an explicit result.
-/

namespace TsProxy

/-! ## `time` -/

/-- The largest `time.Duration`, `1<<63 - 1` nanoseconds. -/
def maxDuration : Int := 9223372036854775807

/-- The smallest `time.Duration`, `-1 << 63` nanoseconds. -/
def minDuration : Int := -9223372036854775808

/-- The method `Time.Sub` on clock readings: `t - u`, saturated to the range
of `time.Duration`. -/
def timeSub (t u : Int) : Int :=
  if t - u > maxDuration then maxDuration
  else if t - u < minDuration then minDuration
  else t - u

/-- The number of nanoseconds in `time.Second`. -/
def second : Int := 1000000000

/-! ## Package variables (`setup.go`) -/

/-- The package variables written by `Setup`: `udpTimeout` (an `int`, taken from
the flag `-udp-timeout`, "UDP timeout in seconds") and `debug`. -/
structure Globals where
  udpTimeout : Int
  debug : Bool
deriving DecidableEq, Repr

/-- The values of the package variables before `Setup` runs, which are also the
defaults of the flags in `main`. -/
def defaultGlobals : Globals := { udpTimeout := 330, debug := false }

/-- The function `Setup` on the two variables modelled. -/
def Setup (udpTimeout0 : Int) (debug0 : Bool) : Globals :=
  { udpTimeout := udpTimeout0, debug := debug0 }

/-! ## `ForwardUDP` (`port_forward.go`) -/

/-- The struct `udpSession`; `conn = none` is a nil `net.Conn`. -/
structure udpSession where
  conn : Option Nat
  lastActive : Int
deriving DecidableEq, Repr

/-- The map `sessions`, as an association list with at most one entry per key. -/
abbrev SessionTable := List (String × udpSession)

/-- The observable calls made by the receive loop and the reply tasks. -/
inductive Action
  /-- `pc.ReadFrom(buf)` on the listen socket -/
  | pcReadFrom
  /-- `log.Printf` -/
  | logf
  /-- `mu.Lock()` -/
  | lock
  /-- `mu.Unlock()` -/
  | unlock
  /-- `Close()` on an egress connection -/
  | connClose (c : Nat)
  /-- `dialAny("udp", connect)` -/
  | dial
  /-- `Write(buf[:n])` on an egress connection -/
  | connWrite (c : Nat) (payload : List Nat)
  /-- the `go func(c, target, k)` statement starting a reply task -/
  | spawnReply (c : Nat) (k : String)
  /-- `c.Read(b)` in a reply task -/
  | connRead (c : Nat)
  /-- `pc.WriteTo(b[:m], target)` in a reply task -/
  | pcWriteTo (target : String) (payload : List Nat)
  /-- the deferred `pc.Close()` -/
  | pcClose
deriving DecidableEq, Repr

/-- The map read `sessions[k]` with its `ok` result. -/
def lookupSession (k : String) : SessionTable → Option udpSession
  | [] => none
  | (k', s) :: rest => if k' = k then some s else lookupSession k rest

/-- The map write `sessions[k] = s`. -/
def storeSession (k : String) (s : udpSession) : SessionTable → SessionTable
  | [] => [(k, s)]
  | (k', s') :: rest =>
    if k' = k then (k, s) :: rest else (k', s') :: storeSession k s rest

/-- What the `range` loop of the cleanup leaves behind. -/
structure SweepResult where
  sessions : SessionTable
  actions : List Action
  panicked : Bool
deriving DecidableEq, Repr

/-- The loop `for k, s := range sessions` of the cleanup, visiting the entries
in list order: an entry with `now.Sub(s.lastActive) > time.Duration(udpTimeout)`
has its connection closed and is deleted. `Close` on a nil connection panics,
before the `delete`. -/
def sweep (g : Globals) (now : Int) : SessionTable → SweepResult
  | [] => { sessions := [], actions := [], panicked := false }
  | (k, s) :: rest =>
    if timeSub now s.lastActive > g.udpTimeout then
      match s.conn with
      | none => { sessions := (k, s) :: rest, actions := [], panicked := true }
      | some c =>
        let r := sweep g now rest
        { sessions := r.sessions, actions := Action.connClose c :: r.actions,
          panicked := r.panicked }
    else
      let r := sweep g now rest
      { sessions := (k, s) :: r.sessions, actions := r.actions, panicked := r.panicked }

/-- The variables of the receive loop that outlive an iteration. -/
structure LoopState where
  sessions : SessionTable
  lastCleanup : Int
deriving DecidableEq, Repr

/-- The state in which the receive loop starts: an empty table and
`lastCleanup := time.Now()`. -/
def initLoop (t0 : Int) : LoopState := { sessions := [], lastCleanup := t0 }

/-- How an iteration of the receive loop ends. -/
inductive Status
  /-- the loop goes on to the next `pc.ReadFrom` -/
  | running
  /-- the goroutine returned (read error on the listen socket) -/
  | returned
  /-- a nil dereference: the process dies -/
  | panicked
deriving DecidableEq, Repr

/-- The result of one iteration of the receive loop. -/
structure Outcome where
  state : LoopState
  actions : List Action
  status : Status
deriving DecidableEq, Repr

/-- What the environment hands to one iteration of the receive loop: the result
of `pc.ReadFrom`, the reading of `time.Now()`, and the result `dialAny` gives if
it is called (`none`: an error, with a nil connection). -/
structure PacketIn where
  readErr : Bool
  payload : List Nat
  clientKey : String
  now : Int
  dial : Option Nat
deriving DecidableEq, Repr

/-- The part of the loop body after the cleanup: `sessions[clientKey]`, then the
`exists` branch or the dial branch, up to `mu.Unlock()`. -/
def lookupOrCreate (g : Globals) (sessions : SessionTable) (lastCleanup : Int)
    (p : PacketIn) (acts : List Action) : Outcome :=
  match lookupSession p.clientKey sessions with
  | some session =>
    let sessions1 := storeSession p.clientKey { session with lastActive := p.now } sessions
    match session.conn with
    | none =>
      { state := { sessions := sessions1, lastCleanup := lastCleanup },
        actions := acts, status := Status.panicked }
    | some c =>
      { state := { sessions := sessions1, lastCleanup := lastCleanup },
        actions := acts ++ [Action.connWrite c p.payload, Action.unlock],
        status := Status.running }
  | none =>
    if p.dial.isNone && g.debug then
      { state := { sessions := sessions, lastCleanup := lastCleanup },
        actions := acts ++ [Action.dial, Action.logf, Action.unlock],
        status := Status.running }
    else
      let acts1 := acts ++ [Action.dial] ++ (if g.debug then [Action.logf] else [])
      let sessions1 := storeSession p.clientKey { conn := p.dial, lastActive := p.now } sessions
      match p.dial with
      | none =>
        { state := { sessions := sessions1, lastCleanup := lastCleanup },
          actions := acts1, status := Status.panicked }
      | some c =>
        { state := { sessions := sessions1, lastCleanup := lastCleanup },
          actions := acts1 ++ [Action.connWrite c p.payload,
            Action.spawnReply c p.clientKey, Action.unlock],
          status := Status.running }

/-- One iteration of the `for` loop of the goroutine started by `ForwardUDP`. -/
def recvIteration (g : Globals) (st : LoopState) (p : PacketIn) : Outcome :=
  if p.readErr then
    { state := st, actions := [Action.pcReadFrom, Action.logf, Action.pcClose],
      status := Status.returned }
  else
    let acts0 := [Action.pcReadFrom] ++ (if g.debug then [Action.logf] else []) ++ [Action.lock]
    if timeSub p.now st.lastCleanup > g.udpTimeout then
      let r := sweep g p.now st.sessions
      if r.panicked then
        { state := { sessions := r.sessions, lastCleanup := st.lastCleanup },
          actions := acts0 ++ r.actions, status := Status.panicked }
      else
        lookupOrCreate g r.sessions p.now p (acts0 ++ r.actions)
    else
      lookupOrCreate g st.sessions st.lastCleanup p acts0

/-- What the environment hands to one iteration of a reply task: the result of
`c.Read(b)` and the reading of `time.Now()` taken under the mutex. -/
structure ReplyIn where
  readErr : Bool
  payload : List Nat
  now : Int
deriving DecidableEq, Repr

/-- One iteration of the reply task `go func(c, target, k)`; the Boolean tells
whether the task goes on. The target address is named by the client key, its
`String()`. -/
def replyIteration (st : LoopState) (c : Nat) (k : String) (r : ReplyIn) :
    LoopState × List Action × Bool :=
  if r.readErr then
    (st, [Action.connRead c, Action.connClose c], false)
  else
    match lookupSession k st.sessions with
    | some s =>
      ({ st with sessions := storeSession k { s with lastActive := r.now } st.sessions },
        [Action.connRead c, Action.lock, Action.pcWriteTo k r.payload, Action.unlock], true)
    | none =>
      (st, [Action.connRead c, Action.lock, Action.unlock], true)

/-- An event in the life of one `ForwardUDP` relay: an iteration of the receive
loop, or an iteration of the reply task of connection `c` for client `k`. -/
inductive Event
  | packet (p : PacketIn)
  | reply (c : Nat) (k : String) (r : ReplyIn)
deriving DecidableEq, Repr

/-- The table after a sequence of events, as long as the receive loop is
running; `none` once it has returned or panicked. -/
def runEvents (g : Globals) : LoopState → List Event → Option LoopState
  | st, [] => some st
  | st, Event.packet p :: evs =>
    match (recvIteration g st p).status with
    | Status.running => runEvents g (recvIteration g st p).state evs
    | _ => none
  | st, Event.reply c k r :: evs => runEvents g (replyIteration st c k r).1 evs

/-- The readings of `time.Now()` taken by a sequence of events, in order. An
iteration whose read fails takes no reading. -/
def readings : List Event → List Int
  | [] => []
  | Event.packet p :: evs => if p.readErr then readings evs else p.now :: readings evs
  | Event.reply _ _ r :: evs => if r.readErr then readings evs else r.now :: readings evs

/-- The order a monotonic clock imposes on the readings of a sequence of events
listed in the order of their critical sections; `last` is the reading of the
most recent packet, or the reading at which the loop started. The receive loop
takes its reading before `mu.Lock()`, so it is only known to follow the
readings of the earlier packets, not those of the replies delivered in
between; a reply task takes its reading under the mutex, so it follows the
reading of every packet processed before. An iteration whose read fails takes
no reading. -/
def clockOrdered : Int → List Event → Bool
  | _, [] => true
  | last, Event.packet p :: evs =>
    if p.readErr then clockOrdered last evs
    else decide (last ≤ p.now) && clockOrdered p.now evs
  | last, Event.reply _ _ r :: evs =>
    if r.readErr then clockOrdered last evs
    else decide (last ≤ r.now) && clockOrdered last evs

/-- The invariant of the receive loop for the idle timeout `T`: the readings
stored are not negative, and no resident session was idle for longer than `T`
at the last cleanup. -/
def TableInv (T : Int) (st : LoopState) : Prop :=
  0 ≤ st.lastCleanup ∧
    ∀ ks ∈ st.sessions, 0 ≤ ks.2.lastActive ∧ st.lastCleanup - ks.2.lastActive ≤ T

/-! ## Lock discipline of `ForwardUDP` -/

/-- The calls that block on the network: dialling the target, writing to an
egress connection, writing a reply to the listen socket. -/
def Action.isBlockingCall : Action → Bool
  | Action.dial => true
  | Action.connWrite _ _ => true
  | Action.pcWriteTo _ _ => true
  | _ => false

/-- The blocking reads: `pc.ReadFrom` and `c.Read`. -/
def Action.isBlockingRead : Action → Bool
  | Action.pcReadFrom => true
  | Action.connRead _ => true
  | _ => false

/-- Scans a trace, `held` telling whether the mutex is held at its start: is
some call selected by `sel` made while the mutex is held? -/
def callUnderLock (sel : Action → Bool) : Bool → List Action → Bool
  | _, [] => false
  | _, Action.lock :: rest => callUnderLock sel true rest
  | _, Action.unlock :: rest => callUnderLock sel false rest
  | held, a :: rest => (held && sel a) || callUnderLock sel held rest

/-- Scans a trace, `held` telling whether the mutex is held at its start: is
some call selected by `sel` made while the mutex is not held? -/
def callOutsideLock (sel : Action → Bool) : Bool → List Action → Bool
  | _, [] => false
  | _, Action.lock :: rest => callOutsideLock sel true rest
  | _, Action.unlock :: rest => callOutsideLock sel false rest
  | held, a :: rest => (!held && sel a) || callOutsideLock sel held rest

/-! ## Strings (`strings` of the standard library) -/

/-- The function `unicode.IsSpace`: the characters with the Unicode property
White_Space. -/
def isSpace (c : Char) : Bool :=
  c = '\t' || c = '\n' || c.toNat = 11 || c.toNat = 12 || c = '\r' || c = ' ' ||
  c.toNat = 0x85 || c.toNat = 0xA0 || c.toNat = 0x1680 ||
  (0x2000 ≤ c.toNat && c.toNat ≤ 0x200A) || c.toNat = 0x2028 || c.toNat = 0x2029 ||
  c.toNat = 0x202F || c.toNat = 0x205F || c.toNat = 0x3000

/-- The function `strings.TrimSpace`. -/
def TrimSpace (s : String) : String :=
  String.mk (((s.toList.dropWhile isSpace).reverse.dropWhile isSpace).reverse)

/-- The scan of `strings.Split` for a non-empty separator: `skip` characters of
a separator just matched are still to be passed over, `cur` is the current part
in reverse. -/
def splitAux (sep : List Char) : List Char → Nat → List Char → List (List Char)
  | [], _, cur => [cur.reverse]
  | _ :: rest, skip + 1, cur => splitAux sep rest skip cur
  | c :: rest, 0, cur =>
    if sep.isPrefixOf (c :: rest) then
      cur.reverse :: splitAux sep rest (sep.length - 1) []
    else
      splitAux sep rest 0 (c :: cur)

/-- The function `strings.Split(s, sep)` for a non-empty `sep`, the only use in
`main`: the parts of `s` between the occurrences of `sep`, found left to right
without overlap. -/
def Split (s sep : String) : List String :=
  (splitAux sep.toList s.toList 0 []).map String.mk

/-- The scan of `strings.SplitN(s, "=", 2)`: cut at the first `=`. -/
def splitFirstAux : List Char → List Char → List (List Char)
  | [], cur => [cur.reverse]
  | c :: rest, cur => if c = '=' then [cur.reverse, rest] else splitFirstAux rest (c :: cur)

/-- The call `strings.SplitN(s, "=", 2)`. -/
def SplitN2 (s : String) : List String :=
  (splitFirstAux s.toList []).map String.mk

/-- The function `strings.HasSuffix`. -/
def HasSuffix (s suffix : String) : Bool :=
  suffix.toList.isSuffixOf s.toList

/-! ## Rule processing (`main.go`) -/

/-- A `go tsproxy.F(...)` statement executed by `main`, with its arguments. -/
inductive Relay
  | forwardTCP (bind connect : String) (useTLS : Bool)
  | forwardUDP (bind connect : String)
  | forwardSOCKS (bind connect : String)
  | serveSOCKS (bind tcp4 tcp6 udp4 udp6 : String)
deriving DecidableEq, Repr

/-- What one pass of a rule loop does with its rule. -/
inductive RuleResult
  /-- the `continue` of a rule of invalid format -/
  | skipped
  /-- the `go` statement was reached -/
  | started (r : Relay)
  /-- a run-time panic: the process dies -/
  | panic
deriving DecidableEq, Repr

/-- The body of the loop over `tcpRulesRaw`. -/
def tcpRule (raw : String) : RuleResult :=
  match Split raw "=TLS=" with
  | [a, b] => RuleResult.started (Relay.forwardTCP (TrimSpace a) (TrimSpace b) true)
  | _ =>
    match Split raw "=" with
    | [a, b] => RuleResult.started (Relay.forwardTCP (TrimSpace a) (TrimSpace b) false)
    | _ => RuleResult.skipped

/-- The body of the loop over `udpRulesRaw`. -/
def udpRule (raw : String) : RuleResult :=
  match Split raw "=" with
  | [a, b] => RuleResult.started (Relay.forwardUDP (TrimSpace a) (TrimSpace b))
  | _ => RuleResult.skipped

/-- The body of the loop over `fSocksRaw`. -/
def fwdSocksRule (raw : String) : RuleResult :=
  match Split raw "=" with
  | [a, b] => RuleResult.started (Relay.forwardSOCKS (TrimSpace a) (TrimSpace b))
  | _ => RuleResult.skipped

/-- The four variables `tcp4, tcp6, udp4, udp6` of the serve-socks loop. -/
structure OutOpts where
  tcp4 : String
  tcp6 : String
  udp4 : String
  udp6 : String
deriving DecidableEq, Repr

/-- The body of the loop over `parts[1:]`: one `key=value` option. -/
def applyOpt (o : OutOpts) (opt : String) : OutOpts :=
  match SplitN2 opt with
  | [k, v] =>
    let key := TrimSpace k
    let val := TrimSpace v
    if key = "tcp4" then { o with tcp4 := val }
    else if key = "tcp6" then { o with tcp6 := val }
    else if key = "udp4" then { o with udp4 := val }
    else if key = "udp6" then { o with udp6 := val }
    else if key = "ip4" then { o with tcp4 := val, udp4 := val }
    else if key = "ip6" then { o with tcp6 := val, udp6 := val }
    else o
  | _ => o

/-- The body of the loop over `sSocksRaw`. The slice expression `parts0[:1]`
panics when `parts0` is empty. -/
def serveSocksRule (hostname raw : String) : RuleResult :=
  match Split raw "," with
  | [] => RuleResult.skipped
  | parts0 :: opts =>
    match parts0.toList with
    | [] => RuleResult.panic
    | c :: _ =>
      let parts0 := if c = ':' then hostname ++ ".tshost" ++ parts0 else parts0
      let o := opts.foldl applyOpt { tcp4 := "", tcp6 := "", udp4 := "", udp6 := "" }
      RuleResult.started (Relay.serveSOCKS (TrimSpace parts0)
        (o.tcp4 ++ ":0") (o.tcp6 ++ ":0") (o.udp4 ++ ":0") (o.udp6 ++ ":0"))

/-- The relays started by a run of rule loops, and whether the run panicked. -/
structure RuleRun where
  started : List Relay
  panicked : Bool
deriving DecidableEq, Repr

/-- A `for _, raw := range rules` loop with body `body`, continuing into `next`
when it completes. -/
def ruleLoop (body : String → RuleResult) (next : RuleRun) : List String → RuleRun
  | [] => next
  | raw :: rest =>
    match body raw with
    | RuleResult.skipped => ruleLoop body next rest
    | RuleResult.started r =>
      let t := ruleLoop body next rest
      { started := r :: t.started, panicked := t.panicked }
    | RuleResult.panic => { started := [], panicked := true }

/-- The four rule loops of `main`, in order: `-tcp`, `-udp`, `-fwd-socks`,
`-serve-socks`. -/
def mainRules (hostname : String) (tcpRulesRaw udpRulesRaw fSocksRaw sSocksRaw : List String) :
    RuleRun :=
  ruleLoop tcpRule
    (ruleLoop udpRule
      (ruleLoop fwdSocksRule
        (ruleLoop (serveSocksRule hostname) { started := [], panicked := false } sSocksRaw)
        fSocksRaw)
      udpRulesRaw)
    tcpRulesRaw

/-! ## `ServeSOCKS` (`socks.go`) -/

/-- The functions `ServeSOCKS` can leave in `server.BindOutUDP`. -/
inductive BindOutUDP
  /-- the wrapper around `socks5.BindOutUDP` installed first -/
  | library
  /-- the single-stack hook, which binds `laddr` or else `udpOut` -/
  | singleStack (udpOut : String)
  /-- the hook returning `Newdelayed46UDPConn(udp4, udp6)` -/
  | delayed (udp4 udp6 : String)
deriving DecidableEq, Repr

/-- The value of `server.BindOutUDP` when `ServeSOCKS` calls
`server.ListenAndServe`. -/
def ServeSOCKS (_bind _tcp4 _tcp6 udp4 udp6 : String) : BindOutUDP :=
  if udp4 = "disabled" ∨ udp6 = "disabled" then
    BindOutUDP.singleStack (if udp4 = "disabled" then udp6 else udp4)
  else if udp4 ≠ "" ∨ udp6 ≠ "" then
    BindOutUDP.delayed udp4 udp6
  else
    BindOutUDP.library

/-- The hook installed by the `go` statement `r` of `main`, when `r` starts
`ServeSOCKS`. -/
def Relay.bindOutUDP : Relay → Option BindOutUDP
  | Relay.serveSOCKS b t4 t6 u4 u6 => some (ServeSOCKS b t4 t6 u4 u6)
  | _ => none

/-! ## `resolveTSAddr` (`setup.go`) -/

/-- The calls `resolveTSAddr` makes outside the repository, as functions of
their arguments: `net.SplitHostPort` with its error dropped (host and port are
returned), `net.JoinHostPort`, and `tsServer.Dial(ctx, "udp", addr)` followed by
`RemoteAddr().String()` on the connection, which is `none` when the dial fails
and returns a nil connection. -/
structure NetEnv where
  splitHostPort : String → String × String
  joinHostPort : String → String → String
  dialRemoteAddr : String → Option String

/-- The function `resolveTSAddr`; `none` is the panic of `c.RemoteAddr()` on a
nil connection. -/
def resolveTSAddr (env : NetEnv) (addr : String) : Option String :=
  let hp := env.splitHostPort addr
  if HasSuffix hp.1 ".tshost" then
    match env.dialRemoteAddr (String.mk (hp.1.toList.take (hp.1.toList.length - 7)) ++ ":53") with
    | none => none
    | some remote => some (env.joinHostPort (env.splitHostPort remote).1 hp.2)
  else
    some addr

/-- The same environment with every overlay dial failing. -/
def NetEnv.dialFails (env : NetEnv) : NetEnv :=
  { env with dialRemoteAddr := fun _ => none }

/-! ## `delayed46UDPConn` (`delayed.go`) -/

/-- The network argument of `net.ListenPacket`. -/
inductive Network
  | udp4
  | udp6
deriving DecidableEq, Repr

/-- A socket returned by `net.ListenPacket(network, address)`. -/
structure Socket where
  network : Network
  address : String
deriving DecidableEq, Repr

/-- A `net.Addr`: a `*net.UDPAddr`, with the result of `IP.To4() != nil` and its
text, or a value of another dynamic type, with the name `%T` prints for it. -/
inductive Addr
  | udp (isV4 : Bool) (text : String)
  | other (typeName : String)
deriving DecidableEq, Repr

/-- The struct `delayed46UDPConn` without its mutex: the calls are taken one
after the other. A deadline `none` is the zero `time.Time`. -/
structure delayed46UDPConn where
  conn : Option Socket
  out4 : String
  out6 : String
  readDeadline : Option Int
  writeDeadline : Option Int
deriving DecidableEq, Repr

/-- The function `Newdelayed46UDPConn`. -/
def Newdelayed46UDPConn (out4 out6 : String) : delayed46UDPConn :=
  { conn := none, out4 := out4, out6 := out6, readDeadline := none, writeDeadline := none }

/-- The calls a `delayed46UDPConn` makes on the network stack and on its
underlying socket. -/
inductive SockAct
  | logf
  /-- `net.ListenPacket(network, address)` and whether it succeeded -/
  | listenPacket (network : Network) (address : String) (ok : Bool)
  | setDeadline (c : Socket) (t : Option Int)
  | setReadDeadline (c : Socket) (t : Option Int)
  | setWriteDeadline (c : Socket) (t : Option Int)
  | writeTo (c : Socket) (p : List Nat) (addr : Addr)
  | readFrom (c : Socket)
  | close (c : Socket)
  | localAddr (c : Socket)
deriving DecidableEq, Repr

/-- What a method of `delayed46UDPConn` returns. -/
inductive Ret
  /-- the result of the call on the underlying socket -/
  | underlying
  /-- a nil error, without a call on a socket -/
  | nil
  /-- the zero address `&net.UDPAddr{}` -/
  | zeroAddr
  /-- an error made by the method itself -/
  | error (msg : String)
  /-- the error returned by `net.ListenPacket` -/
  | listenError
deriving DecidableEq, Repr

/-- The method `initConn`; `listenOk` is the outcome of `net.ListenPacket`, if
it is called. The result `Ret.nil` is a nil error. -/
def delayed46UDPConn.initConn (debug : Bool) (d : delayed46UDPConn) (dstAddr : Addr)
    (listenOk : Bool) : delayed46UDPConn × List SockAct × Ret :=
  match d.conn with
  | some _ => (d, [], Ret.nil)
  | none =>
    match dstAddr with
    | Addr.other typeName => (d, [], Ret.error ("invalid address type: " ++ typeName))
    | Addr.udp isV4 _ =>
      let network := if isV4 then Network.udp4 else Network.udp6
      let address := if isV4 then d.out4 else d.out6
      let acts0 := (if debug then [SockAct.logf] else []) ++
        [SockAct.listenPacket network address listenOk]
      if listenOk then
        let c : Socket := { network := network, address := address }
        let acts1 := match d.readDeadline with
          | some t => [SockAct.setReadDeadline c (some t)]
          | none => []
        let acts2 := match d.writeDeadline with
          | some t => [SockAct.setWriteDeadline c (some t)]
          | none => []
        ({ d with conn := some c }, acts0 ++ acts1 ++ acts2, Ret.nil)
      else
        (d, acts0, Ret.listenError)

/-- The method `WriteTo`. -/
def delayed46UDPConn.WriteTo (debug : Bool) (d : delayed46UDPConn) (p : List Nat) (addr : Addr)
    (listenOk : Bool) : delayed46UDPConn × List SockAct × Ret :=
  match d.conn with
  | some c => (d, [SockAct.writeTo c p addr], Ret.underlying)
  | none =>
    match d.initConn debug addr listenOk with
    | (d1, acts, Ret.nil) =>
      match d1.conn with
      | none => (d1, acts, Ret.error "failed to initialize connection")
      | some c => (d1, acts ++ [SockAct.writeTo c p addr], Ret.underlying)
    | (d1, acts, e) => (d1, acts, e)

/-- The method `ReadFrom`; the error is `ErrNotInitialized`. -/
def delayed46UDPConn.ReadFrom (d : delayed46UDPConn) : delayed46UDPConn × List SockAct × Ret :=
  match d.conn with
  | none => (d, [], Ret.error "connection not initialized yet")
  | some c => (d, [SockAct.readFrom c], Ret.underlying)

/-- The method `Close`. -/
def delayed46UDPConn.Close (d : delayed46UDPConn) : delayed46UDPConn × List SockAct × Ret :=
  match d.conn with
  | none => (d, [], Ret.nil)
  | some c => (d, [SockAct.close c], Ret.underlying)

/-- The method `LocalAddr`. -/
def delayed46UDPConn.LocalAddr (d : delayed46UDPConn) : delayed46UDPConn × List SockAct × Ret :=
  match d.conn with
  | none => (d, [], Ret.zeroAddr)
  | some c => (d, [SockAct.localAddr c], Ret.underlying)

/-- The method `SetDeadline`. -/
def delayed46UDPConn.SetDeadline (d : delayed46UDPConn) (t : Option Int) :
    delayed46UDPConn × List SockAct × Ret :=
  let d1 := { d with readDeadline := t, writeDeadline := t }
  match d.conn with
  | some c => (d1, [SockAct.setDeadline c t], Ret.underlying)
  | none => (d1, [], Ret.nil)

/-- The method `SetReadDeadline`. -/
def delayed46UDPConn.SetReadDeadline (d : delayed46UDPConn) (t : Option Int) :
    delayed46UDPConn × List SockAct × Ret :=
  let d1 := { d with readDeadline := t }
  match d.conn with
  | some c => (d1, [SockAct.setReadDeadline c t], Ret.underlying)
  | none => (d1, [], Ret.nil)

/-- The method `SetWriteDeadline`. -/
def delayed46UDPConn.SetWriteDeadline (d : delayed46UDPConn) (t : Option Int) :
    delayed46UDPConn × List SockAct × Ret :=
  let d1 := { d with writeDeadline := t }
  match d.conn with
  | some c => (d1, [SockAct.setWriteDeadline c t], Ret.underlying)
  | none => (d1, [], Ret.nil)

/-- A method call on a `delayed46UDPConn`; a `writeTo` carries the outcome
`net.ListenPacket` has if this call reaches it. -/
inductive Call
  | writeTo (p : List Nat) (addr : Addr) (listenOk : Bool)
  | readFrom
  | localAddr
  | close
  | setDeadline (t : Option Int)
  | setReadDeadline (t : Option Int)
  | setWriteDeadline (t : Option Int)
deriving DecidableEq, Repr

/-- One method call. -/
def delayed46UDPConn.call (debug : Bool) (d : delayed46UDPConn) :
    Call → delayed46UDPConn × List SockAct × Ret
  | Call.writeTo p addr listenOk => d.WriteTo debug p addr listenOk
  | Call.readFrom => d.ReadFrom
  | Call.localAddr => d.LocalAddr
  | Call.close => d.Close
  | Call.setDeadline t => d.SetDeadline t
  | Call.setReadDeadline t => d.SetReadDeadline t
  | Call.setWriteDeadline t => d.SetWriteDeadline t

/-- A sequence of method calls: the final struct and the calls made on the
network stack and the socket, in order. -/
def delayed46UDPConn.run (debug : Bool) : delayed46UDPConn → List Call →
    delayed46UDPConn × List SockAct
  | d, [] => (d, [])
  | d, c :: cs =>
    let r := d.call debug c
    let t := delayed46UDPConn.run debug r.1 cs
    (t.1, r.2.1 ++ t.2)

/-- The sockets created in a trace: the successful `net.ListenPacket` calls. -/
def socketsCreated : List SockAct → List Socket
  | [] => []
  | SockAct.listenPacket n a true :: rest => { network := n, address := a } :: socketsCreated rest
  | _ :: rest => socketsCreated rest

/-- The calls of `net.ListenPacket` in a trace, successful or not. -/
def bindAttempts : List SockAct → Nat
  | [] => 0
  | SockAct.listenPacket _ _ _ :: rest => bindAttempts rest + 1
  | _ :: rest => bindAttempts rest

/-- The sockets on which the `WriteTo` calls of a trace were sent. -/
def writeSockets : List SockAct → List Socket
  | [] => []
  | SockAct.writeTo c _ _ :: rest => c :: writeSockets rest
  | _ :: rest => writeSockets rest

/-! ## `ForwardTCP` (`port_forward.go`) -/

/-- The goroutine `go func(src net.Conn)` that `ForwardTCP` starts for an
accepted connection: which of the two `io.Copy` calls are running, and which
connections have been closed. -/
structure ConnRelay where
  clientToTargetRunning : Bool
  targetToClientRunning : Bool
  srcClosed : Bool
  dstClosed : Bool
deriving DecidableEq, Repr

/-- The goroutine after `dialAny("tcp", connect)`: on a dial error it returns and
the deferred `src.Close()` runs; otherwise `go io.Copy(dst, src)` has been
started and `io.Copy(src, dst)` is running. -/
def startRelay (dialOk : Bool) : ConnRelay :=
  if dialOk then
    { clientToTargetRunning := true, targetToClientRunning := true,
      srcClosed := false, dstClosed := false }
  else
    { clientToTargetRunning := false, targetToClientRunning := false,
      srcClosed := true, dstClosed := false }

/-- One of the two copies returns, at end-of-stream or on an error. -/
inductive CopyEnd
  /-- `io.Copy(dst, src)`, in its own goroutine -/
  | clientToTarget
  /-- `io.Copy(src, dst)`, in the connection's goroutine -/
  | targetToClient
deriving DecidableEq, Repr

/-- What the code does when a copy returns. No statement follows
`go io.Copy(dst, src)` in its goroutine; after `io.Copy(src, dst)` the function
returns and the deferred `dst.Close()` and `src.Close()` run. -/
def relayStep (r : ConnRelay) : CopyEnd → ConnRelay
  | CopyEnd.clientToTarget => { r with clientToTargetRunning := false }
  | CopyEnd.targetToClient =>
    if r.targetToClientRunning then
      { r with targetToClientRunning := false, dstClosed := true, srcClosed := true }
    else r

/-- A sequence of copy returns. -/
def runRelay (r : ConnRelay) (evs : List CopyEnd) : ConnRelay :=
  evs.foldl relayStep r

/-! # Theorems -/

/-! ## The session table -/

theorem mem_storeSession {k : String} {s : udpSession} {l : SessionTable}
    {ks : String × udpSession} (h : ks ∈ storeSession k s l) : ks = (k, s) ∨ ks ∈ l := by
  induction l with
  | nil => simpa [storeSession] using h
  | cons a rest ih =>
    obtain ⟨k', s'⟩ := a
    unfold storeSession at h
    split_ifs at h with hk
    · rcases List.mem_cons.1 h with h1 | h1
      · exact Or.inl h1
      · exact Or.inr (List.mem_cons_of_mem _ h1)
    · rcases List.mem_cons.1 h with h1 | h1
      · exact Or.inr (h1 ▸ List.mem_cons_self _ _)
      · rcases ih h1 with h2 | h2
        · exact Or.inl h2
        · exact Or.inr (List.mem_cons_of_mem _ h2)

theorem lookupSession_mem {k : String} {l : SessionTable} {s : udpSession}
    (h : lookupSession k l = some s) : (k, s) ∈ l := by
  induction l with
  | nil => simp [lookupSession] at h
  | cons a rest ih =>
    obtain ⟨k', s'⟩ := a
    unfold lookupSession at h
    split_ifs at h with hk
    · simp only [Option.some.injEq] at h
      subst hk; subst h
      exact List.mem_cons_self _ _
    · exact List.mem_cons_of_mem _ (ih h)

theorem timeSub_not_gt {t u T : Int} (hu : 0 ≤ u) (ht : t ≤ maxDuration)
    (h : ¬ timeSub t u > T) : t - u ≤ T := by
  unfold timeSub at h
  unfold maxDuration at ht
  split_ifs at h with h1 h2
  · simp only [maxDuration] at h1; omega
  · omega
  · omega

theorem sweep_spec (g : Globals) (now : Int) (l : SessionTable)
    (hp : (sweep g now l).panicked = false) :
    ∀ ks ∈ (sweep g now l).sessions,
      ks ∈ l ∧ ¬ timeSub now ks.2.lastActive > g.udpTimeout := by
  induction l with
  | nil => simp [sweep]
  | cons a rest ih =>
    obtain ⟨k, s⟩ := a
    unfold sweep at hp ⊢
    split_ifs at hp ⊢ with hidle
    · cases hc : s.conn with
      | none => simp [hc] at hp
      | some c =>
        simp only [hc] at hp ⊢
        intro ks hks
        exact ⟨List.mem_cons_of_mem _ (ih hp ks hks).1, (ih hp ks hks).2⟩
    · simp only at hp ⊢
      intro ks hks
      rcases List.mem_cons.1 hks with h1 | h1
      · subst h1
        exact ⟨List.mem_cons_self _ _, hidle⟩
      · exact ⟨List.mem_cons_of_mem _ (ih hp ks h1).1, (ih hp ks h1).2⟩

theorem lookupOrCreate_lastCleanup (g : Globals) (sessions : SessionTable) (lc : Int)
    (p : PacketIn) (acts : List Action) :
    (lookupOrCreate g sessions lc p acts).state.lastCleanup = lc := by
  cases hl : lookupSession p.clientKey sessions with
  | some s => cases hc : s.conn <;> simp [lookupOrCreate, hl, hc]
  | none =>
    cases hd : p.dial <;> cases hg : g.debug <;> simp [lookupOrCreate, hl, hd, hg]

theorem lookupOrCreate_sessions (P : udpSession → Prop) (g : Globals) (sessions : SessionTable)
    (lc : Int) (p : PacketIn) (acts : List Action)
    (h : ∀ ks ∈ sessions, P ks.2) (hnew : ∀ c, P { conn := c, lastActive := p.now }) :
    ∀ ks ∈ (lookupOrCreate g sessions lc p acts).state.sessions, P ks.2 := by
  have hstore : ∀ s : udpSession, P s →
      ∀ ks ∈ storeSession p.clientKey s sessions, P ks.2 := by
    intro s hs ks hks
    rcases mem_storeSession hks with h1 | h1
    · subst h1; exact hs
    · exact h ks h1
  cases hl : lookupSession p.clientKey sessions with
  | some s =>
    cases hc : s.conn <;> simp only [lookupOrCreate, hl, hc] <;> exact hstore _ (hnew _)
  | none =>
    cases hd : p.dial <;> cases hg : g.debug <;>
      simp only [lookupOrCreate, hl, hd, hg, Option.isNone_none, Option.isNone_some,
        Bool.and_true, Bool.and_false, Bool.false_eq_true, if_true, if_false] <;>
      first
        | exact h
        | exact hstore _ (hnew _)

theorem recvIteration_readErr (g : Globals) (st : LoopState) (p : PacketIn)
    (h : p.readErr = true) : (recvIteration g st p).status = Status.returned := by
  simp [recvIteration, h]

theorem recvIteration_sweep_panicked (g : Globals) (st : LoopState) (p : PacketIn)
    (hre : p.readErr = false) (hsw : timeSub p.now st.lastCleanup > g.udpTimeout)
    (hpan : (sweep g p.now st.sessions).panicked = true) :
    (recvIteration g st p).status = Status.panicked := by
  simp [recvIteration, hre, hsw, hpan]

theorem recvIteration_sweep (g : Globals) (st : LoopState) (p : PacketIn)
    (hre : p.readErr = false) (hsw : timeSub p.now st.lastCleanup > g.udpTimeout)
    (hpan : (sweep g p.now st.sessions).panicked = false) :
    recvIteration g st p = lookupOrCreate g (sweep g p.now st.sessions).sessions p.now p
      ([Action.pcReadFrom] ++ (if g.debug then [Action.logf] else []) ++ [Action.lock]
        ++ (sweep g p.now st.sessions).actions) := by
  simp [recvIteration, hre, hsw, hpan]

theorem recvIteration_noSweep (g : Globals) (st : LoopState) (p : PacketIn)
    (hre : p.readErr = false) (hsw : ¬ timeSub p.now st.lastCleanup > g.udpTimeout) :
    recvIteration g st p = lookupOrCreate g st.sessions st.lastCleanup p
      ([Action.pcReadFrom] ++ (if g.debug then [Action.logf] else []) ++ [Action.lock]) := by
  simp only [recvIteration, hre, hsw]
  simp

theorem recvIteration_inv (g : Globals) (st : LoopState) (p : PacketIn)
    (hT : 0 ≤ g.udpTimeout) (hinv : TableInv g.udpTimeout st) (hlc : st.lastCleanup ≤ p.now)
    (hmax : p.now ≤ maxDuration) (hrun : (recvIteration g st p).status = Status.running) :
    TableInv g.udpTimeout (recvIteration g st p).state ∧
      (recvIteration g st p).state.lastCleanup ≤ p.now ∧
      ∀ ks ∈ (recvIteration g st p).state.sessions,
        p.now - ks.2.lastActive ≤ 2 * g.udpTimeout := by
  obtain ⟨hlc0, hses⟩ := hinv
  have hnow0 : 0 ≤ p.now := le_trans hlc0 hlc
  cases hre : p.readErr with
  | true => rw [recvIteration_readErr g st p hre] at hrun; cases hrun
  | false =>
    by_cases hsw : timeSub p.now st.lastCleanup > g.udpTimeout
    · cases hpan : (sweep g p.now st.sessions).panicked with
      | true => rw [recvIteration_sweep_panicked g st p hre hsw hpan] at hrun; cases hrun
      | false =>
        rw [recvIteration_sweep g st p hre hsw hpan]
        have hP := lookupOrCreate_sessions
          (fun s => 0 ≤ s.lastActive ∧ p.now - s.lastActive ≤ g.udpTimeout) g
          (sweep g p.now st.sessions).sessions p.now p
          ([Action.pcReadFrom] ++ (if g.debug then [Action.logf] else []) ++ [Action.lock]
            ++ (sweep g p.now st.sessions).actions)
          (by
            intro ks hks
            obtain ⟨hmem, hidle⟩ := sweep_spec g p.now st.sessions hpan ks hks
            exact ⟨(hses ks hmem).1, timeSub_not_gt (hses ks hmem).1 hmax hidle⟩)
          (by intro c; simp only [sub_self]; exact ⟨hnow0, hT⟩)
        rw [TableInv, lookupOrCreate_lastCleanup]
        refine ⟨⟨hnow0, hP⟩, le_refl _, ?_⟩
        intro ks hks
        have := (hP ks hks).2
        omega
    · rw [recvIteration_noSweep g st p hre hsw]
      have hgap : p.now - st.lastCleanup ≤ g.udpTimeout := timeSub_not_gt hlc0 hmax hsw
      have hP := lookupOrCreate_sessions
        (fun s => 0 ≤ s.lastActive ∧ st.lastCleanup - s.lastActive ≤ g.udpTimeout) g
        st.sessions st.lastCleanup p
        ([Action.pcReadFrom] ++ (if g.debug then [Action.logf] else []) ++ [Action.lock])
        hses
        (by intro c; simp only; exact ⟨hnow0, by omega⟩)
      rw [TableInv, lookupOrCreate_lastCleanup]
      refine ⟨⟨hlc0, hP⟩, hlc, ?_⟩
      intro ks hks
      have := (hP ks hks).2
      omega

theorem replyIteration_inv (T : Int) (st : LoopState) (c : Nat) (k : String) (r : ReplyIn)
    (hT : 0 ≤ T) (hinv : TableInv T st) (hlc : r.readErr = false → st.lastCleanup ≤ r.now) :
    TableInv T (replyIteration st c k r).1 ∧
      (replyIteration st c k r).1.lastCleanup = st.lastCleanup := by
  obtain ⟨hlc0, hses⟩ := hinv
  cases hre : r.readErr with
  | true =>
    have : (replyIteration st c k r).1 = st := by simp [replyIteration, hre]
    rw [this]
    exact ⟨⟨hlc0, hses⟩, rfl⟩
  | false =>
    cases hl : lookupSession k st.sessions with
    | none =>
      have : (replyIteration st c k r).1 = st := by simp [replyIteration, hre, hl]
      rw [this]
      exact ⟨⟨hlc0, hses⟩, rfl⟩
    | some s =>
      have : (replyIteration st c k r).1 =
          { st with sessions := storeSession k { s with lastActive := r.now } st.sessions } := by
        simp [replyIteration, hre, hl]
      rw [this]
      refine ⟨⟨hlc0, ?_⟩, rfl⟩
      intro ks hks
      rcases mem_storeSession hks with h1 | h1
      · subst h1
        have := hlc hre
        simp only
        constructor <;> omega
      · exact hses ks h1

theorem clockOrdered_of_pairwise :
    ∀ (evs : List Event) (l : Int), List.Pairwise (· ≤ ·) (l :: readings evs) →
      clockOrdered l evs = true := by
  intro evs
  induction evs with
  | nil => intro l _; rfl
  | cons e evs ih =>
    intro l h
    cases e with
    | packet q =>
      cases hre : q.readErr with
      | true =>
        simp only [readings, hre, if_true] at h
        simpa [clockOrdered, hre] using ih l h
      | false =>
        simp only [readings, hre, Bool.false_eq_true, if_false] at h
        have h1 : l ≤ q.now := (List.pairwise_cons.1 h).1 q.now (List.mem_cons_self _ _)
        have h2 := ih q.now (List.pairwise_cons.1 h).2
        simp [clockOrdered, hre, h1, h2]
    | reply c k r =>
      cases hre : r.readErr with
      | true =>
        simp only [readings, hre, if_true] at h
        simpa [clockOrdered, hre] using ih l h
      | false =>
        simp only [readings, hre, Bool.false_eq_true, if_false] at h
        have h1 : l ≤ r.now := (List.pairwise_cons.1 h).1 r.now (List.mem_cons_self _ _)
        have h2 : List.Pairwise (· ≤ ·) (l :: readings evs) :=
          List.pairwise_cons.2
            ⟨fun x hx => (List.pairwise_cons.1 h).1 x (List.mem_cons_of_mem _ hx),
             (List.pairwise_cons.1 (List.pairwise_cons.1 h).2).2⟩
        simp [clockOrdered, hre, h1, ih l h2]

theorem runEvents_bound (g : Globals) (hT : 0 ≤ g.udpTimeout) (p : PacketIn) :
    ∀ (evs : List Event) (st st' : LoopState) (l : Int),
      TableInv g.udpTimeout st → st.lastCleanup ≤ l →
      clockOrdered l (evs ++ [Event.packet p]) = true →
      (∀ r ∈ readings (evs ++ [Event.packet p]), r ≤ maxDuration) →
      runEvents g st (evs ++ [Event.packet p]) = some st' →
      ∀ ks ∈ st'.sessions, p.now - ks.2.lastActive ≤ 2 * g.udpTimeout := by
  intro evs
  induction evs with
  | nil =>
    intro st st' l hinv hl hclock hmax hrun
    simp only [List.nil_append, runEvents] at hrun
    cases hst : (recvIteration g st p).status with
    | running =>
      rw [hst] at hrun
      simp only [Option.some.injEq] at hrun
      cases hre : p.readErr with
      | true => rw [recvIteration_readErr g st p hre] at hst; cases hst
      | false =>
        simp only [List.nil_append, readings, hre, Bool.false_eq_true, if_false,
          List.mem_singleton, forall_eq] at hmax
        simp only [List.nil_append, clockOrdered, hre, Bool.false_eq_true, if_false,
          Bool.and_true, decide_eq_true_eq] at hclock
        rw [← hrun]
        exact (recvIteration_inv g st p hT hinv (le_trans hl hclock) hmax hst).2.2
    | returned => rw [hst] at hrun; cases hrun
    | panicked => rw [hst] at hrun; cases hrun
  | cons e evs ih =>
    intro st st' l hinv hl hclock hmax hrun
    cases e with
    | packet q =>
      simp only [List.cons_append, runEvents] at hrun
      cases hst : (recvIteration g st q).status with
      | running =>
        rw [hst] at hrun
        cases hre : q.readErr with
        | true => rw [recvIteration_readErr g st q hre] at hst; cases hst
        | false =>
          simp only [List.cons_append, readings, hre, Bool.false_eq_true, if_false,
            List.mem_cons, forall_eq_or_imp] at hmax
          simp only [List.cons_append, clockOrdered, hre, Bool.false_eq_true, if_false,
            Bool.and_eq_true, decide_eq_true_eq] at hclock
          obtain ⟨hinv', hlc', _⟩ :=
            recvIteration_inv g st q hT hinv (le_trans hl hclock.1) hmax.1 hst
          exact ih _ st' q.now hinv' hlc' hclock.2 hmax.2 hrun
      | returned => rw [hst] at hrun; cases hrun
      | panicked => rw [hst] at hrun; cases hrun
    | reply c k r =>
      simp only [List.cons_append, runEvents] at hrun
      cases hre : r.readErr with
      | true =>
        simp only [List.cons_append, readings, hre, if_true] at hmax
        simp only [List.cons_append, clockOrdered, hre, if_true] at hclock
        obtain ⟨hinv', hlc'⟩ := replyIteration_inv g.udpTimeout st c k r hT hinv
          (by intro h; rw [hre] at h; cases h)
        exact ih _ st' l hinv' (hlc' ▸ hl) hclock hmax hrun
      | false =>
        simp only [List.cons_append, readings, hre, Bool.false_eq_true, if_false,
          List.mem_cons, forall_eq_or_imp] at hmax
        simp only [List.cons_append, clockOrdered, hre, Bool.false_eq_true, if_false,
          Bool.and_eq_true, decide_eq_true_eq] at hclock
        obtain ⟨hinv', hlc'⟩ := replyIteration_inv g.udpTimeout st c k r hT hinv
          (fun _ => le_trans hl hclock.1)
        exact ih _ st' l hinv' (hlc' ▸ hl) hclock.2 hmax.2 hrun

theorem sweep_actions (g : Globals) (now : Int) (l : SessionTable) :
    ∀ a ∈ (sweep g now l).actions, ∃ c, a = Action.connClose c := by
  induction l with
  | nil => simp [sweep]
  | cons x rest ih =>
    obtain ⟨k, s⟩ := x
    unfold sweep
    split_ifs with hidle
    · cases hc : s.conn with
      | none => simp
      | some c =>
        intro a ha
        simp only [List.mem_cons] at ha
        rcases ha with h1 | h1
        · exact ⟨c, h1⟩
        · exact ih a h1
    · exact ih

theorem callUnderLock_closes (sel : Action → Bool) (hsel : ∀ c, sel (Action.connClose c) = false)
    (held : Bool) (rest : List Action) :
    ∀ cl : List Action, (∀ a ∈ cl, ∃ c, a = Action.connClose c) →
      callUnderLock sel held (cl ++ rest) = callUnderLock sel held rest := by
  intro cl
  induction cl with
  | nil => intro _; rfl
  | cons x xs ih =>
    intro h
    obtain ⟨c, rfl⟩ := h x (List.mem_cons_self _ _)
    simp only [List.cons_append, callUnderLock, hsel, Bool.and_false, Bool.false_or]
    exact ih (fun a ha => h a (List.mem_cons_of_mem _ ha))

theorem callOutsideLock_closes (sel : Action → Bool)
    (hsel : ∀ c, sel (Action.connClose c) = false) (held : Bool) (rest : List Action) :
    ∀ cl : List Action, (∀ a ∈ cl, ∃ c, a = Action.connClose c) →
      callOutsideLock sel held (cl ++ rest) = callOutsideLock sel held rest := by
  intro cl
  induction cl with
  | nil => intro _; rfl
  | cons x xs ih =>
    intro h
    obtain ⟨c, rfl⟩ := h x (List.mem_cons_self _ _)
    simp only [List.cons_append, callOutsideLock, hsel, Bool.and_false, Bool.false_or]
    exact ih (fun a ha => h a (List.mem_cons_of_mem _ ha))

theorem lookupOrCreate_trace (g : Globals) (sessions : SessionTable) (lc : Int) (p : PacketIn)
    (acts : List Action) (hrun : (lookupOrCreate g sessions lc p acts).status = Status.running) :
    ∃ tail, (lookupOrCreate g sessions lc p acts).actions = acts ++ tail ∧
      callUnderLock Action.isBlockingCall true tail = true ∧
      callOutsideLock Action.isBlockingCall true tail = false ∧
      callUnderLock Action.isBlockingRead true tail = false := by
  cases hl : lookupSession p.clientKey sessions with
  | some s =>
    cases hc : s.conn with
    | none => simp [lookupOrCreate, hl, hc] at hrun
    | some c =>
      refine ⟨[Action.connWrite c p.payload, Action.unlock], ?_, ?_, ?_, ?_⟩ <;>
        simp [lookupOrCreate, hl, hc, callUnderLock, callOutsideLock, Action.isBlockingCall,
          Action.isBlockingRead]
  | none =>
    cases hd : p.dial with
    | none =>
      cases hg : g.debug with
      | false => simp [lookupOrCreate, hl, hd, hg] at hrun
      | true =>
        refine ⟨[Action.dial, Action.logf, Action.unlock], ?_, ?_, ?_, ?_⟩ <;>
          simp [lookupOrCreate, hl, hd, hg, callUnderLock, callOutsideLock,
            Action.isBlockingCall, Action.isBlockingRead]
    | some c =>
      cases hg : g.debug with
      | false =>
        refine ⟨[Action.dial, Action.connWrite c p.payload, Action.spawnReply c p.clientKey,
          Action.unlock], ?_, ?_, ?_, ?_⟩ <;>
          simp [lookupOrCreate, hl, hd, hg, callUnderLock, callOutsideLock,
            Action.isBlockingCall, Action.isBlockingRead]
      | true =>
        refine ⟨[Action.dial, Action.logf, Action.connWrite c p.payload,
          Action.spawnReply c p.clientKey, Action.unlock], ?_, ?_, ?_, ?_⟩ <;>
          simp [lookupOrCreate, hl, hd, hg, callUnderLock, callOutsideLock,
            Action.isBlockingCall, Action.isBlockingRead]

/-! ## Lemmas on `delayed46UDPConn` -/

theorem socketsCreated_append (a b : List SockAct) :
    socketsCreated (a ++ b) = socketsCreated a ++ socketsCreated b := by
  induction a with
  | nil => rfl
  | cons x xs ih =>
    cases x with
    | listenPacket n ad ok => cases ok <;> simp [socketsCreated, ih]
    | _ => simp [socketsCreated, ih]

theorem bindAttempts_append (a b : List SockAct) :
    bindAttempts (a ++ b) = bindAttempts a + bindAttempts b := by
  induction a with
  | nil => simp [bindAttempts]
  | cons x xs ih =>
    cases x with
    | listenPacket n ad ok =>
      show bindAttempts (xs ++ b) + 1 = bindAttempts xs + 1 + bindAttempts b
      rw [ih]; omega
    | _ => simp [bindAttempts, ih]

theorem writeSockets_append (a b : List SockAct) :
    writeSockets (a ++ b) = writeSockets a ++ writeSockets b := by
  induction a with
  | nil => rfl
  | cons x xs ih =>
    cases x <;> simp [writeSockets, ih]

theorem call_out (debug : Bool) (d : delayed46UDPConn) (cl : Call) :
    (d.call debug cl).1.out4 = d.out4 ∧ (d.call debug cl).1.out6 = d.out6 := by
  cases cl with
  | writeTo p addr ok =>
    cases hc : d.conn with
    | some c => simp [delayed46UDPConn.call, delayed46UDPConn.WriteTo, hc]
    | none =>
      cases addr with
      | other t =>
        simp [delayed46UDPConn.call, delayed46UDPConn.WriteTo, delayed46UDPConn.initConn, hc]
      | udp v4 t =>
        cases ok <;>
          simp [delayed46UDPConn.call, delayed46UDPConn.WriteTo, delayed46UDPConn.initConn, hc]
  | readFrom => cases hc : d.conn <;> simp [delayed46UDPConn.call, delayed46UDPConn.ReadFrom, hc]
  | localAddr => cases hc : d.conn <;> simp [delayed46UDPConn.call, delayed46UDPConn.LocalAddr, hc]
  | close => cases hc : d.conn <;> simp [delayed46UDPConn.call, delayed46UDPConn.Close, hc]
  | setDeadline t =>
    cases hc : d.conn <;> simp [delayed46UDPConn.call, delayed46UDPConn.SetDeadline, hc]
  | setReadDeadline t =>
    cases hc : d.conn <;> simp [delayed46UDPConn.call, delayed46UDPConn.SetReadDeadline, hc]
  | setWriteDeadline t =>
    cases hc : d.conn <;> simp [delayed46UDPConn.call, delayed46UDPConn.SetWriteDeadline, hc]

theorem call_of_some (debug : Bool) (d : delayed46UDPConn) (cl : Call) (c : Socket)
    (hc : d.conn = some c) :
    (d.call debug cl).1.conn = some c ∧ socketsCreated (d.call debug cl).2.1 = [] ∧
      bindAttempts (d.call debug cl).2.1 = 0 ∧
      ∀ s ∈ writeSockets (d.call debug cl).2.1, s = c := by
  cases cl <;>
    simp [delayed46UDPConn.call, delayed46UDPConn.WriteTo, delayed46UDPConn.ReadFrom,
      delayed46UDPConn.LocalAddr, delayed46UDPConn.Close, delayed46UDPConn.SetDeadline,
      delayed46UDPConn.SetReadDeadline, delayed46UDPConn.SetWriteDeadline, hc,
      socketsCreated, bindAttempts, writeSockets]

theorem call_of_none (debug : Bool) (d : delayed46UDPConn) (cl : Call)
    (hc : d.conn = none) (hc1 : (d.call debug cl).1.conn = none) :
    socketsCreated (d.call debug cl).2.1 = [] ∧ writeSockets (d.call debug cl).2.1 = [] := by
  cases cl with
  | writeTo p addr ok =>
    cases addr with
    | other t =>
      simp [delayed46UDPConn.call, delayed46UDPConn.WriteTo, delayed46UDPConn.initConn, hc,
        socketsCreated, writeSockets]
    | udp v4 t =>
      cases ok with
      | true =>
        simp [delayed46UDPConn.call, delayed46UDPConn.WriteTo, delayed46UDPConn.initConn, hc]
          at hc1
      | false =>
        cases debug <;>
          simp [delayed46UDPConn.call, delayed46UDPConn.WriteTo, delayed46UDPConn.initConn, hc,
            socketsCreated, writeSockets]
  | _ =>
    simp [delayed46UDPConn.call, delayed46UDPConn.ReadFrom,
      delayed46UDPConn.LocalAddr, delayed46UDPConn.Close, delayed46UDPConn.SetDeadline,
      delayed46UDPConn.SetReadDeadline, delayed46UDPConn.SetWriteDeadline, hc,
      socketsCreated, writeSockets]

theorem run_append (debug : Bool) (a b : List Call) :
    ∀ d : delayed46UDPConn, d.run debug (a ++ b) =
      (((d.run debug a).1.run debug b).1, (d.run debug a).2 ++ ((d.run debug a).1.run debug b).2) := by
  induction a with
  | nil => intro d; simp [delayed46UDPConn.run]
  | cons c cs ih => intro d; simp [delayed46UDPConn.run, ih]

theorem run_out (debug : Bool) (calls : List Call) :
    ∀ d : delayed46UDPConn,
      (d.run debug calls).1.out4 = d.out4 ∧ (d.run debug calls).1.out6 = d.out6 := by
  induction calls with
  | nil => intro d; simp [delayed46UDPConn.run]
  | cons c cs ih =>
    intro d
    simp only [delayed46UDPConn.run]
    rw [(ih _).1, (ih _).2]
    exact call_out debug d c

theorem run_of_some (debug : Bool) (calls : List Call) :
    ∀ (d : delayed46UDPConn) (c : Socket), d.conn = some c →
      (d.run debug calls).1.conn = some c ∧ socketsCreated (d.run debug calls).2 = [] ∧
        bindAttempts (d.run debug calls).2 = 0 ∧
        ∀ s ∈ writeSockets (d.run debug calls).2, s = c := by
  induction calls with
  | nil => intro d c hc; simp [delayed46UDPConn.run, hc, socketsCreated, bindAttempts, writeSockets]
  | cons cl cs ih =>
    intro d c hc
    obtain ⟨h1, h2, h3, h4⟩ := call_of_some debug d cl c hc
    obtain ⟨i1, i2, i3, i4⟩ := ih (d.call debug cl).1 c h1
    simp only [delayed46UDPConn.run, socketsCreated_append, bindAttempts_append,
      writeSockets_append, List.mem_append]
    refine ⟨i1, by rw [h2, i2]; rfl, by rw [h3, i3], ?_⟩
    rintro s (hs | hs)
    · exact h4 s hs
    · exact i4 s hs

theorem run_of_none (debug : Bool) (calls : List Call) :
    ∀ d : delayed46UDPConn, (d.run debug calls).1.conn = none →
      socketsCreated (d.run debug calls).2 = [] ∧ writeSockets (d.run debug calls).2 = [] := by
  induction calls with
  | nil => intro d _; simp [delayed46UDPConn.run, socketsCreated, writeSockets]
  | cons cl cs ih =>
    intro d hend
    simp only [delayed46UDPConn.run] at hend ⊢
    have hd : d.conn = none := by
      cases hc : d.conn with
      | none => rfl
      | some c =>
        have h1 := (call_of_some debug d cl c hc).1
        rw [(run_of_some debug cs _ c h1).1] at hend
        cases hend
    have hmid : (d.call debug cl).1.conn = none := by
      cases hc : (d.call debug cl).1.conn with
      | none => rfl
      | some c =>
        rw [(run_of_some debug cs _ c hc).1] at hend
        cases hend
    obtain ⟨h1, h2⟩ := call_of_none debug d cl hd hmid
    obtain ⟨i1, i2⟩ := ih _ hend
    rw [socketsCreated_append, writeSockets_append, h1, h2, i1, i2]
    exact ⟨rfl, rfl⟩

theorem writeTo_failed_bind (debug : Bool) (d : delayed46UDPConn) (q : List Nat) (v4 : Bool)
    (t : String) (hc : d.conn = none) :
    d.call debug (Call.writeTo q (Addr.udp v4 t) false)
      = (d, (if debug then [SockAct.logf] else []) ++
          [SockAct.listenPacket (if v4 then Network.udp4 else Network.udp6)
            (if v4 then d.out4 else d.out6) false],
         Ret.listenError) := by
  cases debug <;>
    simp [delayed46UDPConn.call, delayed46UDPConn.WriteTo, delayed46UDPConn.initConn, hc]

theorem writeTo_bind (debug : Bool) (d : delayed46UDPConn) (q : List Nat) (v4 : Bool)
    (t : String) (hc : d.conn = none) :
    (d.call debug (Call.writeTo q (Addr.udp v4 t) true)).1.conn
        = some { network := if v4 then Network.udp4 else Network.udp6,
                 address := if v4 then d.out4 else d.out6 } ∧
      (d.call debug (Call.writeTo q (Addr.udp v4 t) true)).2.2 = Ret.underlying := by
  cases debug <;> cases hr : d.readDeadline <;> cases hw : d.writeDeadline <;>
    simp [delayed46UDPConn.call, delayed46UDPConn.WriteTo, delayed46UDPConn.initConn, hc, hr, hw]

theorem writeTo_of_some (debug : Bool) (d : delayed46UDPConn) (c : Socket) (q : List Nat)
    (addr : Addr) (ok : Bool) (hc : d.conn = some c) :
    d.call debug (Call.writeTo q addr ok) = (d, [SockAct.writeTo c q addr], Ret.underlying) := by
  simp [delayed46UDPConn.call, delayed46UDPConn.WriteTo, hc]

theorem writeTo_v4_binds (debug : Bool) (d : delayed46UDPConn) (p : List Nat) (text : String)
    (hc : d.conn = none) :
    (d.call debug (Call.writeTo p (Addr.udp true text) true)).1.conn
        = some { network := Network.udp4, address := d.out4 } ∧
      socketsCreated (d.call debug (Call.writeTo p (Addr.udp true text) true)).2.1
        = [{ network := Network.udp4, address := d.out4 }] ∧
      bindAttempts (d.call debug (Call.writeTo p (Addr.udp true text) true)).2.1 = 1 ∧
      writeSockets (d.call debug (Call.writeTo p (Addr.udp true text) true)).2.1
        = [{ network := Network.udp4, address := d.out4 }] := by
  cases debug <;> cases hr : d.readDeadline <;> cases hw : d.writeDeadline <;>
    simp [delayed46UDPConn.call, delayed46UDPConn.WriteTo, delayed46UDPConn.initConn, hc, hr, hw,
      socketsCreated, bindAttempts, writeSockets]

theorem call_sockets_le (debug : Bool) (d : delayed46UDPConn) (cl : Call) :
    (socketsCreated (d.call debug cl).2.1).length ≤ 1 := by
  cases hc : d.conn with
  | some c => rw [(call_of_some debug d cl c hc).2.1]; simp
  | none =>
    cases cl with
    | writeTo p addr ok =>
      cases addr with
      | other t =>
        simp [delayed46UDPConn.call, delayed46UDPConn.WriteTo, delayed46UDPConn.initConn, hc,
          socketsCreated]
      | udp v4 t =>
        cases ok <;> cases debug <;> cases hr : d.readDeadline <;> cases hw : d.writeDeadline <;>
          simp [delayed46UDPConn.call, delayed46UDPConn.WriteTo, delayed46UDPConn.initConn, hc,
            hr, hw, socketsCreated]
    | _ =>
      simp [delayed46UDPConn.call, delayed46UDPConn.ReadFrom,
        delayed46UDPConn.LocalAddr, delayed46UDPConn.Close, delayed46UDPConn.SetDeadline,
        delayed46UDPConn.SetReadDeadline, delayed46UDPConn.SetWriteDeadline, hc,
        socketsCreated]

theorem run_sockets_le (debug : Bool) (calls : List Call) :
    ∀ d : delayed46UDPConn, (socketsCreated (d.run debug calls).2).length ≤ 1 := by
  induction calls with
  | nil => intro d; simp [delayed46UDPConn.run, socketsCreated]
  | cons cl cs ih =>
    intro d
    simp only [delayed46UDPConn.run, socketsCreated_append, List.length_append]
    cases hmid : (d.call debug cl).1.conn with
    | some c =>
      rw [(run_of_some debug cs _ c hmid).2.1]
      simpa using call_sockets_le debug d cl
    | none =>
      cases hc : d.conn with
      | some c =>
        rw [(call_of_some debug d cl c hc).1] at hmid
        cases hmid
      | none =>
        rw [(call_of_none debug d cl hc hmid).1]
        simpa using ih _

/-! ## Lemmas on strings -/

theorem append_port_ne_disabled (s : String) : s ++ ":0" ≠ "disabled" := by
  intro h
  have h1 := congrArg String.data h
  have h2 := congrArg List.getLast? h1
  simp at h2

theorem append_port_ne_empty (s : String) : s ++ ":0" ≠ "" := by
  intro h
  have h1 := congrArg String.data h
  simp at h1

/-! ## The claims -/

/-- Claim C1, evaluated at its failing input. A packet from a client without a
session arrives at the freshly started receive loop and the dial fails. With
`debug = false` the test `err != nil && debug` is false, so the `else` branch
runs with a nil connection: an entry is stored in the session table and
`dstConn.Write` panics. Only with `debug = true` is the packet dropped, the
table left empty and the loop still running. -/
theorem forwardUDP_dial_failure_without_debug (T t0 now : Int) (payload : List Nat) (key : String) :
    (recvIteration (Setup T false) (initLoop t0)
        { readErr := false, payload := payload, clientKey := key, now := now, dial := none }).status
      = Status.panicked ∧
    (recvIteration (Setup T false) (initLoop t0)
        { readErr := false, payload := payload, clientKey := key, now := now, dial := none }).state.sessions
      = [(key, { conn := none, lastActive := now })] ∧
    (recvIteration (Setup T true) (initLoop t0)
        { readErr := false, payload := payload, clientKey := key, now := now, dial := none }).status
      = Status.running ∧
    (recvIteration (Setup T true) (initLoop t0)
        { readErr := false, payload := payload, clientKey := key, now := now, dial := none }).state.sessions
      = [] := by
  refine ⟨?_, ?_, ?_, ?_⟩ <;>
    by_cases h : timeSub now t0 > T <;>
    simp [recvIteration, Setup, initLoop, sweep, lookupOrCreate, lookupSession, storeSession, h]

/-- Claim C2, evaluated at its failing input. `main` appends `":0"` to every
option value before it calls `ServeSOCKS`, so for `udp4=1.2.3.4,udp6=disabled`
the arguments are `"1.2.3.4:0"` and `"disabled:0"`; the comparison with
`"disabled"` fails and the hook installed is the one returning a
`delayed46UDPConn`. The same holds for every pair of option values: the
single-stack hook is never installed for a rule parsed by `main`. -/
theorem main_disabled_sentinel_installs_delayed_hook :
    (mainRules "ts-proxy" [] [] [] ["100.64.0.1:1080,udp4=1.2.3.4,udp6=disabled"]).started
      = [Relay.serveSOCKS "100.64.0.1:1080" ":0" ":0" "1.2.3.4:0" "disabled:0"] ∧
    ServeSOCKS "100.64.0.1:1080" ":0" ":0" "1.2.3.4:0" "disabled:0"
      = BindOutUDP.delayed "1.2.3.4:0" "disabled:0" ∧
    ∀ b t4 t6 u4 u6 : String, ServeSOCKS b t4 t6 (u4 ++ ":0") (u6 ++ ":0")
      = BindOutUDP.delayed (u4 ++ ":0") (u6 ++ ":0") := by
  refine ⟨by decide, by decide, ?_⟩
  intro b t4 t6 u4 u6
  simp [ServeSOCKS, append_port_ne_disabled, append_port_ne_empty]

/-- Claim C3, evaluated at its failing input. With the default
`-udp-timeout` of 330 ("UDP timeout in seconds"), the sweep compares against
`time.Duration(udpTimeout)`, which is 330 nanoseconds: a session last active
one microsecond before the packet, far less than 330 seconds, is closed and
removed. -/
theorem sweep_removes_session_idle_one_microsecond :
    (1000 : Int) - 0 < defaultGlobals.udpTimeout * second ∧
    (recvIteration defaultGlobals
        { sessions := [("10.0.0.1:5000", { conn := some 1, lastActive := 0 })], lastCleanup := 0 }
        { readErr := false, payload := [7], clientKey := "10.0.0.2:6000", now := 1000,
          dial := some 2 })
      = { state := { sessions := [("10.0.0.2:6000", { conn := some 2, lastActive := 1000 })],
                     lastCleanup := 1000 },
          actions := [Action.pcReadFrom, Action.lock, Action.connClose 1, Action.dial,
            Action.connWrite 2 [7], Action.spawnReply 2 "10.0.0.2:6000", Action.unlock],
          status := Status.running } := by
  decide

/-- Claim C4. Let the receive loop of `ForwardUDP` start at reading `t0`, let
the idle timeout `T = time.Duration(udpTimeout)` be non-negative, and let the
readings of `time.Now()` be values of a monotonic clock (non-negative, within
`int64`), non-decreasing in the order in which they are taken: the events are
listed in the order of their critical sections, each packet's reading, taken
before `mu.Lock()`, follows the readings of the earlier packets, and each
reply's reading, taken under the mutex, follows the reading of the last packet
processed before it (a run whose readings are non-decreasing in the listed
order is one such run). After any sequence of events that ends with a packet
processed at `p.now`, with the loop still running, every session resident in
the table satisfies `p.now - lastActive ≤ 2 * T`. -/
theorem forwardUDP_resident_sessions_within_two_timeouts (g : Globals) (t0 : Int)
    (evs : List Event) (p : PacketIn) (st : LoopState)
    (hT : 0 ≤ g.udpTimeout)
    (hclock : clockOrdered t0 (evs ++ [Event.packet p]) = true ∨
      List.Pairwise (· ≤ ·) (t0 :: readings (evs ++ [Event.packet p])))
    (hrange : ∀ r ∈ t0 :: readings (evs ++ [Event.packet p]), 0 ≤ r ∧ r ≤ maxDuration)
    (hrun : runEvents g (initLoop t0) (evs ++ [Event.packet p]) = some st) :
    ∀ ks ∈ st.sessions, p.now - ks.2.lastActive ≤ 2 * g.udpTimeout := by
  have hinv : TableInv g.udpTimeout (initLoop t0) :=
    ⟨(hrange t0 (List.mem_cons_self _ _)).1, by simp [initLoop]⟩
  have hclock1 : clockOrdered t0 (evs ++ [Event.packet p]) = true := by
    rcases hclock with h | h
    · exact h
    · exact clockOrdered_of_pairwise _ t0 h
  exact runEvents_bound g hT p evs (initLoop t0) st t0 hinv (le_refl _) hclock1
    (fun r hr => (hrange r (List.mem_cons_of_mem _ hr)).2) hrun

/-- Witness for C4: the default timeout; a client is served at reading 100, its
reply task stamps reading 205 under the mutex, and then the packet of a second
client, read at 200 before the receive loop got the mutex, is processed. -/
theorem forwardUDP_resident_sessions_within_two_timeouts_witness :
    runEvents defaultGlobals (initLoop 0)
        ([Event.packet
            { readErr := false, payload := [1], clientKey := "10.0.0.1:5000", now := 100,
              dial := some 1 },
          Event.reply 1 "10.0.0.1:5000" { readErr := false, payload := [9], now := 205 }] ++
          [Event.packet
            { readErr := false, payload := [3], clientKey := "10.0.0.2:6000", now := 200,
              dial := some 2 }])
      = some { sessions := [("10.0.0.1:5000", { conn := some 1, lastActive := 205 }),
                            ("10.0.0.2:6000", { conn := some 2, lastActive := 200 })],
               lastCleanup := 0 } ∧
    ∀ ks ∈ [("10.0.0.1:5000", ({ conn := some 1, lastActive := 205 } : udpSession)),
            ("10.0.0.2:6000", { conn := some 2, lastActive := 200 })],
      (200 : Int) - ks.2.lastActive ≤ 2 * 330 :=
  ⟨by decide,
   forwardUDP_resident_sessions_within_two_timeouts defaultGlobals 0
    [Event.packet
       { readErr := false, payload := [1], clientKey := "10.0.0.1:5000", now := 100,
         dial := some 1 },
     Event.reply 1 "10.0.0.1:5000" { readErr := false, payload := [9], now := 205 }]
    { readErr := false, payload := [3], clientKey := "10.0.0.2:6000", now := 200, dial := some 2 }
    { sessions := [("10.0.0.1:5000", { conn := some 1, lastActive := 205 }),
                   ("10.0.0.2:6000", { conn := some 2, lastActive := 200 })],
      lastCleanup := 0 }
    (by decide) (Or.inl (by decide)) (by decide) (by decide)⟩

/-- Claim C5 as stated fails. The first `WriteTo` has an IPv4 destination but
`net.ListenPacket("udp4", out4)` fails: `initConn` returns the error and leaves
`conn` nil. The next `WriteTo`, to an IPv6 destination, binds `udp6` at `out6`
and is sent on that socket: no socket was bound on `udp4`, and the later write
did not go out on an IPv4-bound socket. -/
theorem delayed46_failed_bind_then_ipv6 :
    (Newdelayed46UDPConn "1.2.3.4:0" "[::1]:0").run false
        [Call.writeTo [1] (Addr.udp true "8.8.8.8:53") false,
         Call.writeTo [2] (Addr.udp false "[2001:db8::1]:53") true]
      = ({ conn := some { network := Network.udp6, address := "[::1]:0" }, out4 := "1.2.3.4:0",
           out6 := "[::1]:0", readDeadline := none, writeDeadline := none },
         [SockAct.listenPacket Network.udp4 "1.2.3.4:0" false,
          SockAct.listenPacket Network.udp6 "[::1]:0" true,
          SockAct.writeTo { network := Network.udp6, address := "[::1]:0" } [2]
            (Addr.udp false "[2001:db8::1]:53")]) ∧
    socketsCreated ((Newdelayed46UDPConn "1.2.3.4:0" "[::1]:0").run false
        [Call.writeTo [1] (Addr.udp true "8.8.8.8:53") false,
         Call.writeTo [2] (Addr.udp false "[2001:db8::1]:53") true]).2
      = [{ network := Network.udp6, address := "[::1]:0" }] ∧
    writeSockets ((Newdelayed46UDPConn "1.2.3.4:0" "[::1]:0").run false
        [Call.writeTo [1] (Addr.udp true "8.8.8.8:53") false,
         Call.writeTo [2] (Addr.udp false "[2001:db8::1]:53") true]).2
      = [{ network := Network.udp6, address := "[::1]:0" }] := by
  decide

/-- Claim C5, amended. For a `delayed46UDPConn` made by `Newdelayed46UDPConn`
and every sequence of calls: at most one socket is ever created, and once `conn`
is set it never changes. A `WriteTo` on an unset conn whose bind fails returns
the error of `net.ListenPacket` and leaves the struct as it was, conn unset, so
the next `WriteTo` chooses the family again, from its own destination; a
`WriteTo` whose bind succeeds sets the conn to the socket of its destination's
family and returns the result of the write on it; a `WriteTo` on a set conn is
sent on that conn, whatever its destination, without a bind. Hence, if no bind
has succeeded in the calls `pre` and the next `WriteTo` has an IPv4 destination
and its bind succeeds, then after any further calls `post` the conn is the
socket bound on `udp4` at `out4`, it is the only socket created, no
`net.ListenPacket` is called after that bind, and every `WriteTo` sent went out
on that socket. -/
theorem delayed46_sticky_after_successful_bind (debug : Bool) (out4 out6 : String)
    (pre post : List Call) (p : List Nat) (text : String)
    (hpre : ((Newdelayed46UDPConn out4 out6).run debug pre).1.conn = none) :
    (∀ calls : List Call,
      (socketsCreated ((Newdelayed46UDPConn out4 out6).run debug calls).2).length ≤ 1) ∧
    (∀ (a b : List Call) (c : Socket),
      ((Newdelayed46UDPConn out4 out6).run debug a).1.conn = some c →
      ((Newdelayed46UDPConn out4 out6).run debug (a ++ b)).1.conn = some c) ∧
    (∀ (d : delayed46UDPConn) (q : List Nat) (v4 : Bool) (t : String), d.conn = none →
      d.call debug (Call.writeTo q (Addr.udp v4 t) false)
        = (d, (if debug then [SockAct.logf] else []) ++
            [SockAct.listenPacket (if v4 then Network.udp4 else Network.udp6)
              (if v4 then d.out4 else d.out6) false],
           Ret.listenError)) ∧
    (∀ (d : delayed46UDPConn) (q : List Nat) (v4 : Bool) (t : String), d.conn = none →
      (d.call debug (Call.writeTo q (Addr.udp v4 t) true)).1.conn
          = some { network := if v4 then Network.udp4 else Network.udp6,
                   address := if v4 then d.out4 else d.out6 } ∧
        (d.call debug (Call.writeTo q (Addr.udp v4 t) true)).2.2 = Ret.underlying) ∧
    (∀ (d : delayed46UDPConn) (c : Socket) (q : List Nat) (addr : Addr) (ok : Bool),
      d.conn = some c →
      d.call debug (Call.writeTo q addr ok) = (d, [SockAct.writeTo c q addr], Ret.underlying)) ∧
    (∀ (q q2 : List Nat) (v4 w : Bool) (t t2 : String),
      ((Newdelayed46UDPConn out4 out6).run debug
          (pre ++ [Call.writeTo q (Addr.udp v4 t) false,
                   Call.writeTo q2 (Addr.udp w t2) true])).1.conn
        = some { network := if w then Network.udp4 else Network.udp6,
                 address := if w then out4 else out6 }) ∧
    ((Newdelayed46UDPConn out4 out6).run debug
        (pre ++ Call.writeTo p (Addr.udp true text) true :: post)).1.conn
      = some { network := Network.udp4, address := out4 } ∧
    socketsCreated ((Newdelayed46UDPConn out4 out6).run debug
        (pre ++ Call.writeTo p (Addr.udp true text) true :: post)).2
      = [{ network := Network.udp4, address := out4 }] ∧
    bindAttempts ((Newdelayed46UDPConn out4 out6).run debug
        (pre ++ Call.writeTo p (Addr.udp true text) true :: post)).2
      = bindAttempts ((Newdelayed46UDPConn out4 out6).run debug pre).2 + 1 ∧
    ∀ s ∈ writeSockets ((Newdelayed46UDPConn out4 out6).run debug
        (pre ++ Call.writeTo p (Addr.udp true text) true :: post)).2,
      s = { network := Network.udp4, address := out4 } := by
  have ho : ((Newdelayed46UDPConn out4 out6).run debug pre).1.out4 = out4 :=
    (run_out debug pre _).1
  have ho6 : ((Newdelayed46UDPConn out4 out6).run debug pre).1.out6 = out6 :=
    (run_out debug pre _).2
  refine ⟨fun calls => run_sockets_le debug calls _, ?_,
    fun d q v4 t hc => writeTo_failed_bind debug d q v4 t hc,
    fun d q v4 t hc => writeTo_bind debug d q v4 t hc,
    fun d c q addr ok hc => writeTo_of_some debug d c q addr ok hc, ?_, ?_⟩
  · intro a b c hc
    rw [run_append]
    exact (run_of_some debug b _ c hc).1
  · intro q q2 v4 w t t2
    rw [run_append]
    simp only [delayed46UDPConn.run]
    rw [writeTo_failed_bind debug _ q v4 t hpre]
    simp only
    rw [(writeTo_bind debug _ q2 w t2 hpre).1, ho, ho6]
  obtain ⟨p1, p2⟩ := run_of_none debug pre _ hpre
  obtain ⟨w1, w2, w3, w4⟩ :=
    writeTo_v4_binds debug ((Newdelayed46UDPConn out4 out6).run debug pre).1 p text hpre
  rw [ho] at w1 w2 w4
  obtain ⟨r1, r2, r3, r4⟩ := run_of_some debug post _ _ w1
  rw [run_append]
  simp only [delayed46UDPConn.run, socketsCreated_append, bindAttempts_append,
    writeSockets_append, List.mem_append]
  refine ⟨r1, by rw [p1, w2, r2]; rfl, by rw [w3, r3], ?_⟩
  rw [p2, w4]
  rintro s (hs | hs | hs)
  · cases hs
  · simpa using hs
  · exact r4 s hs

/-- Witness for C5: a deadline set, a read and a failed bind come first; then a
`WriteTo` to an IPv4 destination binds, and a `WriteTo` to an IPv6 destination
follows. -/
theorem delayed46_sticky_after_successful_bind_witness :
    ((Newdelayed46UDPConn "1.2.3.4:0" "[::1]:0").run false
        [Call.setReadDeadline (some 5), Call.readFrom,
         Call.writeTo [1] (Addr.udp true "8.8.8.8:53") false]).1.conn = none ∧
    socketsCreated ((Newdelayed46UDPConn "1.2.3.4:0" "[::1]:0").run false
        ([Call.setReadDeadline (some 5), Call.readFrom,
          Call.writeTo [1] (Addr.udp true "8.8.8.8:53") false] ++
          Call.writeTo [2] (Addr.udp true "8.8.8.8:53") true ::
          [Call.writeTo [3] (Addr.udp false "[2001:db8::1]:53") true])).2
      = [{ network := Network.udp4, address := "1.2.3.4:0" }] :=
  ⟨by decide,
   (delayed46_sticky_after_successful_bind false "1.2.3.4:0" "[::1]:0"
      [Call.setReadDeadline (some 5), Call.readFrom,
       Call.writeTo [1] (Addr.udp true "8.8.8.8:53") false]
      [Call.writeTo [3] (Addr.udp false "[2001:db8::1]:53") true] [2] "8.8.8.8:53"
      (by decide)).2.2.2.2.2.2.2.1⟩

/-- Claim C6, evaluated at its failing input. When every overlay dial fails,
`resolveTSAddr` panics for each address whose host ends in `.tshost` (the error
of `tsServer.Dial` is discarded and `c.RemoteAddr()` is called on the nil
connection), and returns every other address unchanged; so it does for
`peer.tshost:1080`. -/
theorem resolveTSAddr_dial_failure_panics :
    (∀ (env : NetEnv) (addr : String),
      resolveTSAddr env.dialFails addr
        = if HasSuffix (env.splitHostPort addr).1 ".tshost" then none else some addr) ∧
    resolveTSAddr
        { splitHostPort := (fun _ => ("peer.tshost", "1080")),
          joinHostPort := (fun h p => h ++ ":" ++ p),
          dialRemoteAddr := (fun _ => none) }
        "peer.tshost:1080"
      = none := by
  refine ⟨?_, by decide⟩
  intro env addr
  simp [resolveTSAddr, NetEnv.dialFails]

/-- Claim C7, evaluated at its failing inputs. A serve-socks rule that is the
empty string, or that starts with a comma, makes `parts[0]` empty, and the slice
`parts0[:1]` panics: no later rule is processed, whatever follows in the list
and whatever the hostname. -/
theorem main_serve_socks_empty_head_panics :
    (∀ (hostname : String) (next : RuleRun) (rest : List String),
      ruleLoop (serveSocksRule hostname) next ("" :: rest)
        = { started := [], panicked := true }) ∧
    (∀ (hostname : String) (next : RuleRun) (rest : List String) (s : String),
      ruleLoop (serveSocksRule hostname) next (("," ++ s) :: rest)
        = { started := [], panicked := true }) ∧
    mainRules "ts-proxy" [] [] [] ["", "100.64.0.1:1080"] = { started := [], panicked := true } ∧
    mainRules "ts-proxy" [] [] [] [",udp4=1.2.3.4", "100.64.0.1:1080"]
      = { started := [], panicked := true } := by
  refine ⟨?_, ?_, by decide, by decide⟩
  · intro hostname next rest
    simp [ruleLoop, serveSocksRule, Split, splitAux]
  · intro hostname next rest s
    simp [ruleLoop, serveSocksRule, Split, splitAux]

/-- Claim C9 as stated fails. After a successful dial, the client-to-target
copy `io.Copy(dst, src)` returns: its goroutine just ends, the target-to-client
copy is still running and neither connection is closed. -/
theorem forwardTCP_client_eof_closes_nothing :
    runRelay (startRelay true) [CopyEnd.clientToTarget]
      = { clientToTargetRunning := false, targetToClientRunning := true,
          srcClosed := false, dstClosed := false } := by
  decide

/-- Claim C9, amended. For a connection relayed by `ForwardTCP` after a
successful dial and every sequence of copy returns: the relay has ended, with
the inbound and the target connection both closed, exactly when the
target-to-client copy `io.Copy(src, dst)` has returned; the return of the
client-to-target copy alone closes neither connection. -/
theorem forwardTCP_closed_iff_target_copy_returned (evs : List CopyEnd) :
    (runRelay (startRelay true) evs).srcClosed = decide (CopyEnd.targetToClient ∈ evs) ∧
    (runRelay (startRelay true) evs).dstClosed = decide (CopyEnd.targetToClient ∈ evs) ∧
    (runRelay (startRelay true) evs).targetToClientRunning
      = !decide (CopyEnd.targetToClient ∈ evs) := by
  have key : ∀ (evs : List CopyEnd) (r : ConnRelay),
      r.srcClosed = !r.targetToClientRunning → r.dstClosed = !r.targetToClientRunning →
      (runRelay r evs).srcClosed = (r.srcClosed || decide (CopyEnd.targetToClient ∈ evs)) ∧
      (runRelay r evs).dstClosed = (r.dstClosed || decide (CopyEnd.targetToClient ∈ evs)) ∧
      (runRelay r evs).targetToClientRunning
        = (r.targetToClientRunning && !decide (CopyEnd.targetToClient ∈ evs)) := by
    intro evs
    induction evs with
    | nil => intro r _ _; simp [runRelay]
    | cons e es ih =>
      intro r h1 h2
      cases e with
      | clientToTarget =>
        have := ih (relayStep r CopyEnd.clientToTarget) (by simpa [relayStep] using h1)
          (by simpa [relayStep] using h2)
        simpa [runRelay, relayStep] using this
      | targetToClient =>
        cases hr : r.targetToClientRunning with
        | true =>
          have := ih (relayStep r CopyEnd.targetToClient) (by simp [relayStep, hr])
            (by simp [relayStep, hr])
          simpa [runRelay, relayStep, hr] using this
        | false =>
          rw [hr] at h1 h2
          have := ih (relayStep r CopyEnd.targetToClient) (by simp [relayStep, hr, h1])
            (by simp [relayStep, hr, h2])
          simpa [runRelay, relayStep, hr, h1, h2] using this
  simpa [startRelay] using key evs (startRelay true) (by simp [startRelay]) (by simp [startRelay])

/-- Claim C10 as stated fails. For a packet from a new client the receive loop
dials the target and writes to the egress connection between `mu.Lock()` and
`mu.Unlock()`. -/
theorem forwardUDP_dial_and_write_under_mutex :
    (recvIteration defaultGlobals (initLoop 0)
        { readErr := false, payload := [7], clientKey := "10.0.0.2:6000", now := 1000,
          dial := some 2 }).actions
      = [Action.pcReadFrom, Action.lock, Action.dial, Action.connWrite 2 [7],
         Action.spawnReply 2 "10.0.0.2:6000", Action.unlock] ∧
    callUnderLock Action.isBlockingCall false
      (recvIteration defaultGlobals (initLoop 0)
        { readErr := false, payload := [7], clientKey := "10.0.0.2:6000", now := 1000,
          dial := some 2 }).actions = true := by
  decide

/-- Claim C10, amended. In every iteration of the receive loop of `ForwardUDP`
that goes on to the next packet, a dial or an egress write is made while the
session-table mutex is held, none is made outside it, and the blocking read
`pc.ReadFrom` is made with the mutex released. In every iteration of a reply
task the reply write `pc.WriteTo` is made only while the mutex is held (and is
made whenever the session exists), and the blocking read `c.Read` is made with
the mutex released. -/
theorem forwardUDP_blocking_calls_under_mutex (g : Globals) (st : LoopState) (p : PacketIn)
    (hrun : (recvIteration g st p).status = Status.running) :
    callUnderLock Action.isBlockingCall false (recvIteration g st p).actions = true ∧
    callOutsideLock Action.isBlockingCall false (recvIteration g st p).actions = false ∧
    callUnderLock Action.isBlockingRead false (recvIteration g st p).actions = false ∧
    ∀ (c : Nat) (k : String) (r : ReplyIn),
      callOutsideLock Action.isBlockingCall false (replyIteration st c k r).2.1 = false ∧
      callUnderLock Action.isBlockingRead false (replyIteration st c k r).2.1 = false ∧
      (r.readErr = false → lookupSession k st.sessions ≠ none →
        callUnderLock Action.isBlockingCall false (replyIteration st c k r).2.1 = true) := by
  have hclose1 : ∀ c, Action.isBlockingCall (Action.connClose c) = false := fun _ => rfl
  have hclose2 : ∀ c, Action.isBlockingRead (Action.connClose c) = false := fun _ => rfl
  have hrecv : ∃ cl tail, (∀ a ∈ cl, ∃ c, a = Action.connClose c) ∧
      (recvIteration g st p).actions =
        [Action.pcReadFrom] ++ (if g.debug then [Action.logf] else []) ++ [Action.lock]
          ++ cl ++ tail ∧
      callUnderLock Action.isBlockingCall true tail = true ∧
      callOutsideLock Action.isBlockingCall true tail = false ∧
      callUnderLock Action.isBlockingRead true tail = false := by
    cases hre : p.readErr with
    | true => rw [recvIteration_readErr g st p hre] at hrun; cases hrun
    | false =>
      by_cases hsw : timeSub p.now st.lastCleanup > g.udpTimeout
      · cases hpan : (sweep g p.now st.sessions).panicked with
        | true => rw [recvIteration_sweep_panicked g st p hre hsw hpan] at hrun; cases hrun
        | false =>
          rw [recvIteration_sweep g st p hre hsw hpan] at hrun ⊢
          obtain ⟨tail, h1, h2⟩ := lookupOrCreate_trace g _ _ p _ hrun
          exact ⟨(sweep g p.now st.sessions).actions, tail, sweep_actions g p.now st.sessions,
            h1, h2⟩
      · rw [recvIteration_noSweep g st p hre hsw] at hrun ⊢
        obtain ⟨tail, h1, h2⟩ := lookupOrCreate_trace g _ _ p _ hrun
        exact ⟨[], tail, by simp, by simpa using h1, h2⟩
  obtain ⟨cl, tail, hcl, hacts, t1, t2, t3⟩ := hrecv
  refine ⟨?_, ?_, ?_, ?_⟩
  · rw [hacts]
    cases g.debug <;>
      simp [callUnderLock, Action.isBlockingCall, List.append_assoc,
        callUnderLock_closes _ hclose1 true tail cl hcl, t1]
  · rw [hacts]
    cases g.debug <;>
      simp [callOutsideLock, Action.isBlockingCall, List.append_assoc,
        callOutsideLock_closes _ hclose1 true tail cl hcl, t2]
  · rw [hacts]
    cases g.debug <;>
      simp [callUnderLock, Action.isBlockingRead, List.append_assoc,
        callUnderLock_closes _ hclose2 true tail cl hcl, t3]
  · intro c k r
    cases hre : r.readErr with
    | true =>
      simp [replyIteration, hre, callUnderLock, callOutsideLock, Action.isBlockingCall,
        Action.isBlockingRead]
    | false =>
      cases hl : lookupSession k st.sessions <;>
        simp [replyIteration, hre, hl, callUnderLock, callOutsideLock, Action.isBlockingCall,
          Action.isBlockingRead]

/-- Witness for C10: a packet from a new client at the start of the loop. -/
theorem forwardUDP_blocking_calls_under_mutex_witness :
    (recvIteration defaultGlobals (initLoop 0)
        { readErr := false, payload := [7], clientKey := "10.0.0.2:6000", now := 1000,
          dial := some 2 }).status = Status.running ∧
    callOutsideLock Action.isBlockingCall false
      (recvIteration defaultGlobals (initLoop 0)
        { readErr := false, payload := [7], clientKey := "10.0.0.2:6000", now := 1000,
          dial := some 2 }).actions = false :=
  ⟨by decide,
   (forwardUDP_blocking_calls_under_mutex defaultGlobals (initLoop 0)
      { readErr := false, payload := [7], clientKey := "10.0.0.2:6000", now := 1000,
        dial := some 2 }
      (by decide)).2.1⟩

end TsProxy
